import Mathlib

/-!
# Verification of the roll-game core
  (`backend stuff/sockets/cashier/credit/index.js`)

Shallow embedding of the provably-fair roll game core: outcome calculation
(`rollGetOutcome`, `rollIsHashDivisible`), bet-admission validation
(`rollCheckSendBetData`, `rollCheckSendBetUser`, `rollGetUserGameStats`),
round generation persistence (`rollGenerateGame`), seed creation, and the
view sanitizers (`rollSanitizeGame`, `rollSanitizeBets`).

Modelling conventions:
* A hex string is a list of hex-digit values, `List (Fin 16)`, read left to
  right (index 0 is the leading character of the string).
* JavaScript numbers occurring in bet validation are modelled by `JsNum`:
  either `NaN` or an exact rational.  `undefined`/`null` bet fields are
  collapsed into the `nan` case: the validation code rejects all three
  through one disjunction, and in arithmetic `undefined` coerces to `NaN`.
  IEEE-754 rounding is not modelled (the validation inputs are small).
* The non-divisible branch of `rollGetOutcome` is evaluated by the engine
  in IEEE-754 binary64 with round-to-nearest, ties to even: `100 * e`,
  `parseInt` of 13 hex digits and `e - h` are exact, while the subtraction
  `100 * e - h` and the division each round.  `rollOutcomeDouble`
  reproduces this rounding exactly over `ℕ` (see its doc comment); on some
  hashes its value differs from the exact integer
  `⌊(100·e − h) / (e − h)⌋`.
-/

/-! ## Hash-divisibility fold and outcome calculator -/

/-- Integer value of a big-endian string of hex digits
(`parseInt(s, 16)` on a nonempty all-hex string). -/
def hexVal (ds : List (Fin 16)) : ℕ :=
  ds.foldl (fun acc d => acc * 16 + d.val) 0

/-- The loop body of `rollIsHashDivisible` (source lines 233–235) after the
leading partial chunk has been consumed: successive 4-hex-digit chunks are
folded by `val = ((val << 16) + parseInt(chunk, 16)) % mod`.  `val` is
always below `mod` (20 at the call site), so the 32-bit JavaScript shift
never wraps and is exactly `val * 2 ^ 16`.  A trailing group of fewer than
four digits is unreachable here: the caller has already removed
`length % 4` digits. -/
def rollFoldChunks (m : ℕ) : ℕ → List (Fin 16) → ℕ
  | val, [] => val
  | val, [_] => val
  | val, [_, _] => val
  | val, [_, _, _] => val
  | val, d1 :: d2 :: d3 :: d4 :: rest =>
      rollFoldChunks m ((val * 2 ^ 16 + hexVal [d1, d2, d3, d4]) % m) rest

/-- `rollIsHashDivisible(combined, mod)` (source lines 229–238).  With
`o = combined.length % 4`, the first loop iteration (when `o > 0`) reads
`combined.substring(o - 4, o)`, which JavaScript clamps to the leading
`o` characters, and folds it from `val = 0`; the remaining iterations
consume full 4-digit chunks starting at index `o`. -/
def rollIsHashDivisible (combined : List (Fin 16)) (m : ℕ) : Bool :=
  rollFoldChunks m
    (if 0 < combined.length % 4 then
      (0 * 2 ^ 16 + hexVal (List.take (combined.length % 4) combined)) % m
    else 0)
    (List.drop (combined.length % 4) combined) == 0

/-- `const mod = parseInt(100 / (0.05 * 100))` (source line 217).
In IEEE-754 doubles `0.05 * 100` rounds to exactly `5`, so this is
`parseInt(20) = 20`. -/
def rollMod : ℕ := 100 / 5

/-- Round-to-nearest integer of the fraction `a / b`, ties to even
(the rounding IEEE-754 applies to the scaled mantissa; `b = 0` is never
used). -/
def rneDiv (a b : ℕ) : ℕ :=
  if 2 * (a % b) < b then a / b
  else if b < 2 * (a % b) then a / b + 1
  else if a / b % 2 = 0 then a / b else a / b + 1

/-- `⌊log₂ n⌋` for `1 ≤ n < 2 ^ fuel`, by repeated halving (structural in
`fuel`; every use below has `n < 2 ^ 59`, so `fuel = 64` is exact). -/
def log2Below : ℕ → ℕ → ℕ
  | 0, _ => 0
  | fuel + 1, n => if 2 ≤ n then log2Below fuel (n / 2) + 1 else 0

/-- The non-divisible branch `Math.floor((100 * e - h) / (e - h))` of
`rollGetOutcome` (source lines 222–225), with `e = 2 ^ 52` and
`0 ≤ h < 2 ^ 52`, evaluated as the engine does in IEEE-754 binary64 with
round-to-nearest, ties to even:
* `100 * e = 25 · 2 ^ 54` and `e - h ≤ 2 ^ 52` are exactly representable,
  and `h` itself is exact (13 hex digits, below `2 ^ 53`);
* the subtraction `100 * e - h` has exact value in
  `(99 · 2 ^ 52, 100 · 2 ^ 52] ⊆ [2 ^ 58, 2 ^ 59)`, a range in which the
  binary64 numbers are exactly the multiples of `2 ^ 6`, so it rounds to
  `rneDiv (100 * 2 ^ 52 - h) 64 * 64 =: A`;
* the quotient `Q = A / (e - h)` satisfies `100 ≤ Q < 2 ^ 59`; with
  `E = ⌊log₂ Q⌋ = ⌊log₂ ⌊Q⌋⌋`, the binary64 numbers around `Q` are the
  multiples of `2 ^ (E - 52)`, so for `E ≥ 52` the rounded quotient is the
  integer `rneDiv A ((e - h) * 2 ^ (E - 52)) * 2 ^ (E - 52)` (on which
  `Math.floor` is the identity), and for `E < 52` it is
  `rneDiv (A * 2 ^ (52 - E)) (e - h) / 2 ^ (52 - E)` as a real, whose
  `Math.floor` is the natural division written here.  (A mantissa that
  rounds up to `2 ^ 53` lands exactly on the next binade, which these
  formulas also compute correctly.) -/
def rollOutcomeDouble (h : ℕ) : ℕ :=
  let A := rneDiv (100 * 2 ^ 52 - h) 64 * 64
  let B := 2 ^ 52 - h
  let E := log2Below 64 (A / B)
  if 52 ≤ E then rneDiv A (B * 2 ^ (E - 52)) * 2 ^ (E - 52)
  else rneDiv (A * 2 ^ (52 - E)) B / 2 ^ (52 - E)

/-- `rollGetOutcome(combined)` (source lines 216–226): if the hash-fold is
divisible by `rollMod` the outcome is 100; otherwise
`h = parseInt(combined.slice(0, 13), 16)`, `e = 2 ^ 52`, and the result is
`Math.floor((100 * e - h) / (e - h))` computed in binary64, i.e.
`rollOutcomeDouble h`. -/
def rollGetOutcome (combined : List (Fin 16)) : ℕ :=
  if rollIsHashDivisible combined rollMod = true then 100
  else rollOutcomeDouble (hexVal (List.take 13 combined))

/-- Chunk decomposition used to state the spec's fold: maximal run of
4-digit groups read from the front (any shorter tail group is dropped;
the inputs it is used on have length divisible by 4). -/
def rollChunks4 : List (Fin 16) → List (List (Fin 16))
  | [] => []
  | [_] => []
  | [_, _] => []
  | [_, _, _] => []
  | d1 :: d2 :: d3 :: d4 :: rest => [d1, d2, d3, d4] :: rollChunks4 rest

/-- Stated from the spec's words (§4.3 step 1): the hash is "a sequence of
4-hex-digit (16-bit) chunks", "processing any leading partial chunk
first". -/
def specChunkSeq (c : List (Fin 16)) : List (List (Fin 16)) :=
  if c.length % 4 = 0 then rollChunks4 c
  else List.take (c.length % 4) c :: rollChunks4 (List.drop (c.length % 4) c)

/-- Stated from the spec's words (§4.3 step 1): fold each chunk into a
running modular accumulator `acc = (acc << 16 + chunk) mod M`, starting
from 0. -/
def specFoldAcc (c : List (Fin 16)) (m : ℕ) : ℕ :=
  (specChunkSeq c).foldl (fun acc chunk => (acc * 2 ^ 16 + hexVal chunk) % m) 0

theorem rollFoldChunks_eq_foldl (m : ℕ) :
    ∀ (l : List (Fin 16)) (v : ℕ),
      rollFoldChunks m v l =
        (rollChunks4 l).foldl (fun acc chunk => (acc * 2 ^ 16 + hexVal chunk) % m) v
  | [], _ => rfl
  | [_], _ => rfl
  | [_, _], _ => rfl
  | [_, _, _], _ => rfl
  | d1 :: d2 :: d3 :: d4 :: rest, v => by
      simp only [rollFoldChunks, rollChunks4, List.foldl_cons]
      exact rollFoldChunks_eq_foldl m rest _

theorem rollIsHashDivisible_eq_spec (c : List (Fin 16)) (m : ℕ) :
    rollIsHashDivisible c m = (specFoldAcc c m == 0) := by
  unfold rollIsHashDivisible specFoldAcc specChunkSeq
  by_cases h : c.length % 4 = 0
  · rw [if_pos h, if_neg (by omega), rollFoldChunks_eq_foldl]
    simp [h]
  · rw [if_neg h, if_pos (by omega), rollFoldChunks_eq_foldl, List.foldl_cons]

theorem hexVal_foldl_lt (l : List (Fin 16)) :
    ∀ acc : ℕ, l.foldl (fun a d => a * 16 + d.val) acc < (acc + 1) * 16 ^ l.length := by
  induction l with
  | nil => intro acc; simp
  | cons d t ih =>
      intro acc
      have h1 := ih (acc * 16 + d.val)
      have hd : d.val + 1 ≤ 16 := d.isLt
      have h2 : (acc * 16 + d.val + 1) * 16 ^ t.length ≤ ((acc + 1) * 16) * 16 ^ t.length :=
        Nat.mul_le_mul_right _ (by omega)
      have h3 : ((acc + 1) * 16) * 16 ^ t.length = (acc + 1) * 16 ^ (t.length + 1) := by
        rw [pow_succ]; ring
      simpa [List.foldl_cons, h3] using lt_of_lt_of_le h1 (h3 ▸ h2)

theorem hexVal_lt (l : List (Fin 16)) : hexVal l < 16 ^ l.length := by
  simpa [hexVal] using hexVal_foldl_lt l 0

theorem hexVal_take13_lt (c : List (Fin 16)) : hexVal (List.take 13 c) < 2 ^ 52 := by
  have h := hexVal_lt (List.take 13 c)
  have hlen : (List.take 13 c).length ≤ 13 := by
    simp [List.length_take]
  calc hexVal (List.take 13 c) < 16 ^ (List.take 13 c).length := h
    _ ≤ 16 ^ 13 := Nat.pow_le_pow_right (by norm_num) hlen
    _ = 2 ^ 52 := by norm_num

theorem rneDiv_mul_lb (a b : ℕ) (hb : 0 < b) : a ≤ rneDiv a b * b + b / 2 := by
  have hmod : a % b < b := Nat.mod_lt a hb
  unfold rneDiv
  split_ifs with h1 h2 h3
  · have hr : a % b ≤ b / 2 :=
      (Nat.le_div_iff_mul_le (by norm_num)).2 (by rw [Nat.mul_comm]; exact Nat.le_of_lt h1)
    calc a = b * (a / b) + a % b := (Nat.div_add_mod a b).symm
      _ ≤ b * (a / b) + b / 2 := Nat.add_le_add_left hr _
      _ = a / b * b + b / 2 := by rw [Nat.mul_comm]
  · calc a = b * (a / b) + a % b := (Nat.div_add_mod a b).symm
      _ ≤ b * (a / b) + b := Nat.add_le_add_left (Nat.le_of_lt hmod) _
      _ = (a / b + 1) * b := by ring
      _ ≤ (a / b + 1) * b + b / 2 := Nat.le_add_right _ _
  · have heq : b = 2 * (a % b) :=
      Nat.le_antisymm (Nat.le_of_not_lt h1) (Nat.le_of_not_lt h2)
    have hr : b / 2 = a % b := by
      conv_lhs => rw [heq]
      exact Nat.mul_div_cancel_left _ (by norm_num)
    exact le_of_eq (by rw [Nat.mul_comm, hr]; exact (Nat.div_add_mod a b).symm)
  · calc a = b * (a / b) + a % b := (Nat.div_add_mod a b).symm
      _ ≤ b * (a / b) + b := Nat.add_le_add_left (Nat.le_of_lt hmod) _
      _ = (a / b + 1) * b := by ring
      _ ≤ (a / b + 1) * b + b / 2 := Nat.le_add_right _ _

theorem rneDiv_exact (a b : ℕ) (hb : 0 < b) (h : a % b = 0) : rneDiv a b * b = a := by
  unfold rneDiv
  rw [if_pos (by rw [h]; simpa using hb)]
  exact Nat.div_mul_cancel (Nat.dvd_of_mod_eq_zero h)

theorem rneDiv_ge_of_le (x d c : ℕ) (hd : 0 < d) (hx : c * d ≤ x) : c ≤ rneDiv x d := by
  by_contra hlt
  push_neg at hlt
  have hle : rneDiv x d + 1 ≤ c := hlt
  have h1 := rneDiv_mul_lb x d hd
  have h2 : (rneDiv x d + 1) * d ≤ c * d := Nat.mul_le_mul_right d hle
  have h3 : d / 2 < d := Nat.div_lt_self hd (by norm_num)
  have hcontra : c * d < c * d :=
    calc c * d ≤ x := hx
      _ ≤ rneDiv x d * d + d / 2 := h1
      _ < rneDiv x d * d + d := Nat.add_lt_add_left h3 _
      _ = (rneDiv x d + 1) * d := by ring
      _ ≤ c * d := h2
  exact absurd hcontra (lt_irrefl _)

theorem log2Below_le (fuel : ℕ) : ∀ n : ℕ, 0 < n → 2 ^ log2Below fuel n ≤ n := by
  induction fuel with
  | zero => intro n hn; simpa [log2Below] using hn
  | succ f ih =>
      intro n hn
      rw [log2Below]
      split_ifs with h2
      · have hn2 : 0 < n / 2 := Nat.div_pos h2 (by norm_num)
        calc 2 ^ (log2Below f (n / 2) + 1) = 2 ^ log2Below f (n / 2) * 2 := by
              rw [pow_succ]
          _ ≤ n / 2 * 2 := Nat.mul_le_mul_right _ (ih (n / 2) hn2)
          _ ≤ n := by omega
      · simpa using hn

/-- The binary64 evaluation of the non-divisible branch never goes below
100: the exact quotient is at least 100 and round-to-nearest cannot cross
the representable value 100. -/
theorem rollOutcomeDouble_ge100 (h : ℕ) (hh : h < 2 ^ 52) :
    100 ≤ rollOutcomeDouble h := by
  have e52 : (2 : ℕ) ^ 52 = 4503599627370496 := by norm_num
  have hBpos : 0 < 2 ^ 52 - h := by omega
  have h100 : 100 * (2 ^ 52 - h) ≤ rneDiv (100 * 2 ^ 52 - h) 64 * 64 := by
    rcases Nat.eq_zero_or_pos h with h0 | hpos
    · subst h0
      have hex : rneDiv (100 * 2 ^ 52 - 0) 64 * 64 = 100 * 2 ^ 52 - 0 :=
        rneDiv_exact _ 64 (by norm_num) (by norm_num)
      rw [hex]
      simp
    · have hlb := rneDiv_mul_lb (100 * 2 ^ 52 - h) 64 (by norm_num)
      rw [e52] at hlb ⊢
      omega
  simp only [rollOutcomeDouble]
  set A := rneDiv (100 * 2 ^ 52 - h) 64 * 64 with hA
  set B := 2 ^ 52 - h with hB
  set E := log2Below 64 (A / B) with hEdef
  have hQ100 : 100 ≤ A / B := (Nat.le_div_iff_mul_le hBpos).2 h100
  split_ifs with h52
  · have hQpos : 0 < A / B := lt_of_lt_of_le (by norm_num) hQ100
    have hElb : 2 ^ E ≤ A / B := by
      rw [hEdef]
      exact log2Below_le 64 (A / B) hQpos
    have hEB : 2 ^ E * B ≤ A :=
      le_trans (Nat.mul_le_mul_right B hElb) (Nat.div_mul_le_self A B)
    have hDpos : 0 < B * 2 ^ (E - 52) := Nat.mul_pos hBpos (pow_pos (by norm_num) _)
    have hkey : 2 ^ 52 * (B * 2 ^ (E - 52)) ≤ A := by
      calc 2 ^ 52 * (B * 2 ^ (E - 52)) = 2 ^ 52 * 2 ^ (E - 52) * B := by ring
        _ = 2 ^ E * B := by rw [← pow_add, Nat.add_sub_cancel' h52]
        _ ≤ A := hEB
    have hM : 2 ^ 52 ≤ rneDiv A (B * 2 ^ (E - 52)) :=
      rneDiv_ge_of_le A (B * 2 ^ (E - 52)) (2 ^ 52) hDpos hkey
    calc (100 : ℕ) ≤ 2 ^ 52 := by norm_num
      _ = 2 ^ 52 * 1 := (Nat.mul_one _).symm
      _ ≤ rneDiv A (B * 2 ^ (E - 52)) * 2 ^ (E - 52) :=
          Nat.mul_le_mul hM Nat.one_le_two_pow
  · have hpow : 0 < 2 ^ (52 - E) := pow_pos (by norm_num) _
    have hx : 100 * 2 ^ (52 - E) * B ≤ A * 2 ^ (52 - E) := by
      calc 100 * 2 ^ (52 - E) * B = 100 * B * 2 ^ (52 - E) := by ring
        _ ≤ A * 2 ^ (52 - E) := Nat.mul_le_mul_right _ h100
    have hM : 100 * 2 ^ (52 - E) ≤ rneDiv (A * 2 ^ (52 - E)) B :=
      rneDiv_ge_of_le (A * 2 ^ (52 - E)) B (100 * 2 ^ (52 - E)) hBpos hx
    exact (Nat.le_div_iff_mul_le hpow).2 hM

/-! ## Claims C1 and C2: the outcome calculator -/

/-- C1 (amended): for every hash on which the modular fold does not yield 0,
`rollGetOutcome` returns `Math.floor` of the IEEE-754 binary64 evaluation of
`(100·e − h) / (e − h)` (`rollOutcomeDouble h`) with `h` the integer value of
the leading 13 hex digits and `e = 2 ^ 52` — not the exact integer
`⌊(100·e − h) / (e − h)⌋`, from which it can differ by the two roundings —
and the returned value is at least 100, not in the claimed range
`[0, 100)`. -/
theorem rollGetOutcome_formula_ge100 (c : List (Fin 16))
    (hd : rollIsHashDivisible c 20 = false) :
    rollGetOutcome c = rollOutcomeDouble (hexVal (List.take 13 c)) ∧
    100 ≤ rollGetOutcome c := by
  have hd' : rollIsHashDivisible c rollMod = false := hd
  have hout : rollGetOutcome c = rollOutcomeDouble (hexVal (List.take 13 c)) := by
    simp [rollGetOutcome, hd']
  exact ⟨hout, hout ▸ rollOutcomeDouble_ge100 _ (hexVal_take13_lt c)⟩

/-- C1 counterexample, refuting both parts of the claim as stated: the
hash `00000000000001` is not divisible by 20 yet yields outcome 100,
outside `[0, 100)`; and on the hash `ffffffffffffd` (`h = 2 ^ 52 − 3`,
not divisible by 20) the program returns `33 · 2 ^ 52` — the subtraction
`100·e − h = 445856363109679107` rounds down to `99 · 2 ^ 52` in binary64 —
which differs from the exact `⌊(100·e − h) / (e − h)⌋ = 33 · 2 ^ 52 + 1`. -/
theorem rollGetOutcome_claim_counterexample :
    (rollIsHashDivisible [0, 0, 0, 0, 0, 0, 0, 0, 0, 0, 0, 0, 0, 1] 20 = false ∧
      ¬ rollGetOutcome [0, 0, 0, 0, 0, 0, 0, 0, 0, 0, 0, 0, 0, 1] < 100) ∧
    (rollIsHashDivisible [15, 15, 15, 15, 15, 15, 15, 15, 15, 15, 15, 15, 13] 20 = false ∧
      rollGetOutcome [15, 15, 15, 15, 15, 15, 15, 15, 15, 15, 15, 15, 13] ≠
        (100 * 2 ^ 52 -
            hexVal (List.take 13 [15, 15, 15, 15, 15, 15, 15, 15, 15, 15, 15, 15, 13])) /
          (2 ^ 52 -
            hexVal (List.take 13 [15, 15, 15, 15, 15, 15, 15, 15, 15, 15, 15, 15, 13]))) := by
  decide

/-- C1 witness: the amended theorem applied to the hash `00000000000001`. -/
theorem rollGetOutcome_formula_ge100_witness :
    rollIsHashDivisible [0, 0, 0, 0, 0, 0, 0, 0, 0, 0, 0, 0, 0, 1] 20 = false ∧
    (rollGetOutcome [0, 0, 0, 0, 0, 0, 0, 0, 0, 0, 0, 0, 0, 1] =
        rollOutcomeDouble
          (hexVal (List.take 13 [0, 0, 0, 0, 0, 0, 0, 0, 0, 0, 0, 0, 0, 1])) ∧
      100 ≤ rollGetOutcome [0, 0, 0, 0, 0, 0, 0, 0, 0, 0, 0, 0, 0, 1]) :=
  ⟨by decide, rollGetOutcome_formula_ge100 _ (by decide)⟩

/-- C2: `rollIsHashDivisible` at modulus 20 agrees with the spec's fold
(leading partial chunk first, then 4-hex-digit chunks,
`acc = (acc << 16 + chunk) mod 20` from 0); whenever that fold yields 0 the
outcome is exactly 100, and whenever it does not, the other branch (the
binary64 evaluation `rollOutcomeDouble` of the leading 13 hex digits) is
returned instead — so the 100-branch is taken exactly on the fold-zero
inputs. -/
theorem rollGetOutcome_divisible_spec (c : List (Fin 16)) :
    rollIsHashDivisible c 20 = (specFoldAcc c 20 == 0) ∧
    (specFoldAcc c 20 = 0 → rollGetOutcome c = 100) ∧
    (specFoldAcc c 20 ≠ 0 →
      rollGetOutcome c = rollOutcomeDouble (hexVal (List.take 13 c))) := by
  have hspec := rollIsHashDivisible_eq_spec c 20
  refine ⟨hspec, ?_, ?_⟩
  · intro h0
    have : rollIsHashDivisible c rollMod = true := by
      show rollIsHashDivisible c 20 = true
      simp [hspec, h0]
    simp [rollGetOutcome, this]
  · intro h0
    have : rollIsHashDivisible c rollMod = false := by
      show rollIsHashDivisible c 20 = false
      simp [hspec, h0]
    simp [rollGetOutcome, this]

/-- C2 witness: the hash `14` has fold value `0x14 = 20 ≡ 0 (mod 20)`, and
`rollGetOutcome` returns 100 on it. -/
theorem rollGetOutcome_divisible_spec_witness :
    specFoldAcc [1, 4] 20 = 0 ∧ rollGetOutcome [1, 4] = 100 :=
  ⟨by decide, (rollGetOutcome_divisible_spec [1, 4]).2.1 (by decide)⟩

/-! ## JavaScript numbers for bet validation -/

/-- A JavaScript number as used by the bet validators: `nan` covers
`undefined`, `null` and `NaN` (all rejected by the same guard, and all
behaving as `NaN` in the arithmetic below); `num q` is an ordinary number,
modelled as an exact rational. -/
inductive JsNum where
  | nan : JsNum
  | num : ℚ → JsNum
  deriving DecidableEq

/-- `Math.floor`. -/
def JsNum.floorJs : JsNum → JsNum
  | nan => nan
  | num q => num ((⌊q⌋ : ℤ) : ℚ)

/-- JavaScript `+` on numbers (`NaN` propagates). -/
def JsNum.add : JsNum → JsNum → JsNum
  | num a, num b => num (a + b)
  | _, _ => nan

/-- JavaScript `*` on numbers (`NaN` propagates). -/
def JsNum.mul : JsNum → JsNum → JsNum
  | num a, num b => num (a * b)
  | _, _ => nan

/-- JavaScript `/` on numbers (`NaN` propagates; division by zero, which
yields an infinity in JavaScript, never occurs at the call site — the only
divisor is the literal 100). -/
def JsNum.div : JsNum → JsNum → JsNum
  | num a, num b => if b = 0 then nan else num (a / b)
  | _, _ => nan

/-- JavaScript `<` on numbers: false whenever either side is `NaN`. -/
def JsNum.ltJs : JsNum → JsNum → Bool
  | num a, num b => decide (a < b)
  | _, _ => false

/-- JavaScript `>` on numbers: false whenever either side is `NaN`. -/
def JsNum.gtJs : JsNum → JsNum → Bool
  | num a, num b => decide (b < a)
  | _, _ => false

/-! ## Bet-admission validation -/

/-- The three numeric environment parameters read by the validators
(`process.env.ROLL_MIN_AMOUNT`, `ROLL_MAX_AMOUNT`, `ROLL_MAX_PROFIT`),
as the numbers they coerce to. -/
structure RollConfig where
  rollMinAmount : ℚ
  rollMaxAmount : ℚ
  rollMaxProfit : ℚ

/-- The client-supplied bet payload: `data.amount` and `data.multiplier`. -/
structure RollBetData where
  amount : JsNum
  multiplier : JsNum

/-- The user projection consumed by `rollCheckSendBetUser`: only
`user.balance` is read. -/
structure RollUser where
  balance : ℚ

/-- Per-round aggregate stats for one user, as produced by
`rollGetUserGameStats`: both fields are floored at every step, hence
integers. -/
structure RollUserStats where
  bet : ℤ
  winnings : ℤ

/-- The errors a validator can throw, one constructor per distinct
`throw new Error(...)` message. -/
inductive RollError where
  | generic : RollError
  | invalidAmount : RollError
  | invalidMultiplier : RollError
  | minBet : RollError
  | insufficientBalance : RollError
  | maxBet : RollError
  | maxProfit : RollError
  | wrongState : RollError
  deriving DecidableEq

/-- `rollCheckSendBetData(data)` (source lines 126–136): rejects a missing
payload; a missing/non-numeric amount or one whose floor is ≤ 0; a
missing/non-numeric multiplier or one whose floor is ≤ 100; and an amount
whose floor is below `Math.floor(ROLL_MIN_AMOUNT * 1000)`. -/
def rollCheckSendBetData (cfg : RollConfig) (data : Option RollBetData) :
    Except RollError Unit :=
  match data with
  | none => Except.error RollError.generic
  | some d =>
    match d.amount with
    | JsNum.nan => Except.error RollError.invalidAmount
    | JsNum.num a =>
      if ⌊a⌋ ≤ 0 then Except.error RollError.invalidAmount
      else
        match d.multiplier with
        | JsNum.nan => Except.error RollError.invalidMultiplier
        | JsNum.num m =>
          if ⌊m⌋ ≤ 100 then Except.error RollError.invalidMultiplier
          else if ⌊a⌋ < ⌊cfg.rollMinAmount * 1000⌋ then Except.error RollError.minBet
          else Except.ok ()

/-- `rollCheckSendBetUser(data, user, userStats)` (source lines 139–149):
`user.balance < Math.floor(data.amount)` rejects for insufficient balance;
`Math.floor(data.amount + userStats.bet) > Math.floor(ROLL_MAX_AMOUNT * 1000)`
rejects for the per-round bet ceiling;
`Math.floor(data.amount * (data.multiplier / 100) + userStats.winnings) >
Math.floor(ROLL_MAX_PROFIT * 1000)` rejects for the per-round profit
ceiling. -/
def rollCheckSendBetUser (cfg : RollConfig) (data : Option RollBetData)
    (user : Option RollUser) (userStats : RollUserStats) : Except RollError Unit :=
  match data, user with
  | some d, some u =>
    if JsNum.ltJs (JsNum.num u.balance) d.amount.floorJs then
      Except.error RollError.insufficientBalance
    else if JsNum.gtJs ((d.amount.add (JsNum.num (userStats.bet : ℚ))).floorJs)
        (JsNum.num ((⌊cfg.rollMaxAmount * 1000⌋ : ℤ) : ℚ)) then
      Except.error RollError.maxBet
    else if JsNum.gtJs
        (((d.amount.mul (d.multiplier.div (JsNum.num 100))).add
            (JsNum.num (userStats.winnings : ℚ))).floorJs)
        (JsNum.num ((⌊cfg.rollMaxProfit * 1000⌋ : ℤ) : ℚ)) then
      Except.error RollError.maxProfit
    else Except.ok ()
  | _, _ => Except.error RollError.generic

/-- A stored bet of the current round as read by `rollGetUserGameStats`:
the owning user's id, the amount and the scaled multiplier. -/
structure RollStoredBet where
  userId : ℕ
  amount : ℚ
  multiplier : ℚ

/-- `rollGetUserGameStats(user, rollBets)` (source lines 161–172): sums,
over the bets of the given user, the amounts and the potential winnings
`amount * (multiplier / 100)`, flooring the accumulators at every step. -/
def rollGetUserGameStats (userId : ℕ) (rollBets : List RollStoredBet) :
    RollUserStats :=
  rollBets.foldl
    (fun stats b =>
      if b.userId = userId then
        { bet := ⌊(stats.bet : ℚ) + b.amount⌋,
          winnings := ⌊(stats.winnings : ℚ) + b.amount * (b.multiplier / 100)⌋ }
      else stats)
    { bet := 0, winnings := 0 }

/-- Evaluation of `rollCheckSendBetUser` on numeric inputs, with every
JavaScript comparison written out over `ℚ`/`ℤ`.  Shared by the proofs of
the user-validation claims. -/
theorem rollCheckSendBetUser_num (cfg : RollConfig) (u : RollUser)
    (stats : RollUserStats) (a m : ℚ) :
    rollCheckSendBetUser cfg (some ⟨JsNum.num a, JsNum.num m⟩) (some u) stats =
      (if u.balance < ((⌊a⌋ : ℤ) : ℚ) then Except.error RollError.insufficientBalance
       else if ⌊cfg.rollMaxAmount * 1000⌋ < ⌊a + (stats.bet : ℚ)⌋ then
         Except.error RollError.maxBet
       else if ⌊cfg.rollMaxProfit * 1000⌋ < ⌊a * (m / 100) + (stats.winnings : ℚ)⌋ then
         Except.error RollError.maxProfit
       else Except.ok ()) := by
  have h100 : (100 : ℚ) ≠ 0 := by norm_num
  simp only [rollCheckSendBetUser, JsNum.floorJs, JsNum.ltJs, JsNum.gtJs, JsNum.add,
    JsNum.mul, JsNum.div, if_neg h100, decide_eq_true_eq]
  by_cases h1 : u.balance < ((⌊a⌋ : ℤ) : ℚ)
  · rw [if_pos h1, if_pos h1]
  · rw [if_neg h1, if_neg h1]
    by_cases h2 : ⌊cfg.rollMaxAmount * 1000⌋ < ⌊a + (stats.bet : ℚ)⌋
    · rw [if_pos (by exact_mod_cast h2), if_pos h2]
    · rw [if_neg (by exact_mod_cast h2), if_neg h2]
      by_cases h3 : ⌊cfg.rollMaxProfit * 1000⌋ < ⌊a * (m / 100) + (stats.winnings : ℚ)⌋
      · rw [if_pos (by exact_mod_cast h3), if_pos h3]
      · rw [if_neg (by exact_mod_cast h3), if_neg h3]

/-! ## Claims C4, C6, C7, C10: bet-admission validation -/

/-- C4 (amended): the balance check of `rollCheckSendBetUser` is evaluated
on the raw balance against the floored amount only — it rejects for
insufficient balance exactly when `balance < ⌊amount⌋`, independently of
the user's previous bets in the round.  In particular, with balance 1000
and an existing round bet of 900, a new bet of 200 passes the balance
check (it is not rejected with an insufficient-balance error). -/
theorem rollCheckSendBetUser_rawBalance_iff (cfg : RollConfig) (u : RollUser)
    (stats : RollUserStats) (a m : ℚ) :
    rollCheckSendBetUser cfg (some ⟨JsNum.num a, JsNum.num m⟩) (some u) stats =
        Except.error RollError.insufficientBalance ↔
      u.balance < ((⌊a⌋ : ℤ) : ℚ) := by
  rw [rollCheckSendBetUser_num]
  constructor
  · intro h
    by_contra hb
    rw [if_neg hb] at h
    split_ifs at h <;> simp_all
  · intro h
    rw [if_pos h]

/-- C4 counterexample: balance 1000, existing round bet 900, new bet of
amount 200 (multiplier 2.00×) under permissive ceilings — the validator
accepts the bet outright instead of rejecting it with an
insufficient-balance error. -/
theorem rollCheckSendBetUser_rawBalance_counterexample :
    rollCheckSendBetUser ⟨0, 100000, 100000⟩ (some ⟨JsNum.num 200, JsNum.num 200⟩)
      (some ⟨1000⟩) ⟨900, 1800⟩ = Except.ok () := by
  rw [rollCheckSendBetUser_num]
  norm_num

/-- C4 witness: the amended characterisation applied at balance 100 and
amount 200, where the raw-balance check does reject. -/
theorem rollCheckSendBetUser_rawBalance_iff_witness :
    rollCheckSendBetUser ⟨0, 100000, 100000⟩ (some ⟨JsNum.num 200, JsNum.num 200⟩)
      (some ⟨100⟩) ⟨900, 1800⟩ = Except.error RollError.insufficientBalance :=
  (rollCheckSendBetUser_rawBalance_iff _ _ _ _ _).mpr (by norm_num)

/-- C6: provided the balance check passes, `rollCheckSendBetUser` rejects
with the per-round bet-ceiling error exactly when the floored sum of the
new amount and the user's existing round total exceeds
`Math.floor(ROLL_MAX_AMOUNT * 1000)`. -/
theorem rollCheckSendBetUser_maxBet_iff (cfg : RollConfig) (u : RollUser)
    (stats : RollUserStats) (a m : ℚ)
    (hbal : ¬ u.balance < ((⌊a⌋ : ℤ) : ℚ)) :
    rollCheckSendBetUser cfg (some ⟨JsNum.num a, JsNum.num m⟩) (some u) stats =
        Except.error RollError.maxBet ↔
      ⌊cfg.rollMaxAmount * 1000⌋ < ⌊a + (stats.bet : ℚ)⌋ := by
  rw [rollCheckSendBetUser_num, if_neg hbal]
  constructor
  · intro h
    by_contra hc
    rw [if_neg hc] at h
    split_ifs at h <;> simp_all
  · intro h
    rw [if_pos h]

/-- C6 witness: ceiling `ROLL_MAX_AMOUNT * 1000 = 1000`, existing round
total 800 — a bet of 300 is rejected with the bet-ceiling error (via the
theorem) and a bet of 200 (multiplier 1.01×) is accepted. -/
theorem rollCheckSendBetUser_maxBet_iff_witness :
    (¬ ((100000 : ℚ) < ((⌊(300 : ℚ)⌋ : ℤ) : ℚ))) ∧
    rollCheckSendBetUser ⟨0, 1, 100000⟩ (some ⟨JsNum.num 300, JsNum.num 101⟩)
      (some ⟨100000⟩) ⟨800, 808⟩ = Except.error RollError.maxBet ∧
    rollCheckSendBetUser ⟨0, 1, 100000⟩ (some ⟨JsNum.num 200, JsNum.num 101⟩)
      (some ⟨100000⟩) ⟨800, 808⟩ = Except.ok () :=
  ⟨by norm_num,
   (rollCheckSendBetUser_maxBet_iff ⟨0, 1, 100000⟩ ⟨100000⟩ ⟨800, 808⟩ 300 101
      (by norm_num)).mpr (by norm_num),
   by rw [rollCheckSendBetUser_num]; norm_num⟩

/-- C7: format validation succeeds exactly when the amount is a number
with positive floor at or above `Math.floor(ROLL_MIN_AMOUNT * 1000)` and
the multiplier is a number with floor above 100; in particular (with
minimum bet `0.1 * 1000 = 100`) it rejects amount 0, a negative amount,
multiplier 100 and multiplier 99, and accepts multiplier 101 with an
amount at the minimum. -/
theorem rollCheckSendBetData_spec :
    (∀ (cfg : RollConfig) (d : RollBetData),
      rollCheckSendBetData cfg (some d) = Except.ok () ↔
        ((∃ a : ℚ, d.amount = JsNum.num a ∧ 0 < ⌊a⌋ ∧ ⌊cfg.rollMinAmount * 1000⌋ ≤ ⌊a⌋) ∧
         (∃ m : ℚ, d.multiplier = JsNum.num m ∧ 100 < ⌊m⌋))) ∧
    rollCheckSendBetData ⟨1/10, 100000, 100000⟩ (some ⟨JsNum.num 0, JsNum.num 150⟩) =
      Except.error RollError.invalidAmount ∧
    rollCheckSendBetData ⟨1/10, 100000, 100000⟩ (some ⟨JsNum.num (-5), JsNum.num 150⟩) =
      Except.error RollError.invalidAmount ∧
    rollCheckSendBetData ⟨1/10, 100000, 100000⟩ (some ⟨JsNum.num 150, JsNum.num 100⟩) =
      Except.error RollError.invalidMultiplier ∧
    rollCheckSendBetData ⟨1/10, 100000, 100000⟩ (some ⟨JsNum.num 150, JsNum.num 99⟩) =
      Except.error RollError.invalidMultiplier ∧
    rollCheckSendBetData ⟨1/10, 100000, 100000⟩ (some ⟨JsNum.num 150, JsNum.num 101⟩) =
      Except.ok () := by
  refine ⟨?_, by norm_num [rollCheckSendBetData], by norm_num [rollCheckSendBetData],
    by norm_num [rollCheckSendBetData], by norm_num [rollCheckSendBetData],
    by norm_num [rollCheckSendBetData]⟩
  intro cfg d
  obtain ⟨da, dm⟩ := d
  cases da with
  | nan => simp [rollCheckSendBetData]
  | num a =>
      cases dm with
      | nan =>
          simp only [rollCheckSendBetData]
          split_ifs <;> simp
      | num m =>
          simp only [rollCheckSendBetData, JsNum.num.injEq]
          split_ifs with h1 h2 h3 <;>
            simp <;> omega

/-- C10 (amended): format validation and the balance and bet-ceiling tests
of user validation are evaluated on the floored amount (the bet-ceiling
test because the per-round stats are already integers), so they treat a
non-integer amount and its floor identically; the profit-ceiling test,
however, multiplies the raw amount by the multiplier, so user validation
as a whole can differ between an amount and its floor. -/
theorem rollBetValidation_floor_semantics :
    (∀ (cfg : RollConfig) (a : ℚ) (mm : JsNum),
      rollCheckSendBetData cfg (some ⟨JsNum.num a, mm⟩) =
        rollCheckSendBetData cfg (some ⟨JsNum.num ((⌊a⌋ : ℤ) : ℚ), mm⟩)) ∧
    (∀ (cfg : RollConfig) (u : RollUser) (stats : RollUserStats) (a m : ℚ),
      (rollCheckSendBetUser cfg (some ⟨JsNum.num a, JsNum.num m⟩) (some u) stats =
          Except.error RollError.insufficientBalance ↔
        rollCheckSendBetUser cfg (some ⟨JsNum.num ((⌊a⌋ : ℤ) : ℚ), JsNum.num m⟩)
            (some u) stats = Except.error RollError.insufficientBalance) ∧
      (rollCheckSendBetUser cfg (some ⟨JsNum.num a, JsNum.num m⟩) (some u) stats =
          Except.error RollError.maxBet ↔
        rollCheckSendBetUser cfg (some ⟨JsNum.num ((⌊a⌋ : ℤ) : ℚ), JsNum.num m⟩)
            (some u) stats = Except.error RollError.maxBet)) := by
  constructor
  · intro cfg a mm
    cases mm <;> simp [rollCheckSendBetData, Int.floor_intCast]
  · intro cfg u stats a m
    rw [rollCheckSendBetUser_num, rollCheckSendBetUser_num]
    have e1 : (⌊((⌊a⌋ : ℤ) : ℚ)⌋ : ℤ) = ⌊a⌋ := Int.floor_intCast _
    have e2 : (⌊((⌊a⌋ : ℤ) : ℚ) + (stats.bet : ℚ)⌋ : ℤ) = ⌊a + (stats.bet : ℚ)⌋ := by
      rw [Int.floor_add_int, Int.floor_add_int, Int.floor_intCast]
    rw [e1, e2]
    constructor
    · constructor <;> intro h <;> (split_ifs at h ⊢ <;> simp_all)
    · constructor <;> intro h <;> (split_ifs at h ⊢ <;> simp_all)

/-- C10 counterexample: with profit ceiling `0.25 * 1000 = 250` and
multiplier 200.00×, the non-integer amount 1.5 is rejected by the
profit-ceiling test (potential winnings `1.5 × 200 = 300`), while its
floor 1 passes the whole user validation (`1 × 200 = 200`): validation is
not a function of the floored amount alone. -/
theorem rollBetValidation_floor_counterexample :
    rollCheckSendBetUser ⟨0, 100000, 1/4⟩ (some ⟨JsNum.num (3/2), JsNum.num 20000⟩)
      (some ⟨1000⟩) ⟨0, 0⟩ = Except.error RollError.maxProfit ∧
    rollCheckSendBetUser ⟨0, 100000, 1/4⟩ (some ⟨JsNum.num 1, JsNum.num 20000⟩)
      (some ⟨1000⟩) ⟨0, 0⟩ = Except.ok () := by
  have hf : (⌊(3/2 : ℚ)⌋ : ℤ) = 1 := by
    rw [Int.floor_eq_iff] <;> norm_num
  constructor <;> rw [rollCheckSendBetUser_num] <;> norm_num [hf]

/-! ## Claim C3: round generation persistence -/

/-- Persistence state of a seed record (`state` field of `RollSeed`):
`created` is the pending state, `completed` means consumed by a round. -/
inductive RollSeedState where
  | created : RollSeedState
  | completed : RollSeedState
  deriving DecidableEq

/-- The slice of store state touched by the two writes of
`rollGenerateGame`: the state of the pending seed and whether a round
record referencing it exists. -/
structure RollLedgerState where
  seedState : RollSeedState
  roundCreated : Bool
  deriving DecidableEq

/-- The persistence step of `rollGenerateGame` (source lines 193–203):
`Promise.all([RollGame.create(...), RollSeed.findByIdAndUpdate(seed, {state:
'completed'})])`.  The two writes are issued independently with no
transaction; each either succeeds (applying its effect) or fails, the
combined promise resolves only when both succeed, and a failure of one
write does not undo the other's effect.  `createOk`/`updateOk` say whether
each write succeeds. -/
def rollGenerateGameWrites (createOk updateOk : Bool) (s : RollLedgerState) :
    Except Unit Unit × RollLedgerState :=
  let s1 := if createOk then { s with roundCreated := true } else s
  let s2 := if updateOk then { s1 with seedState := RollSeedState.completed } else s1
  (if createOk && updateOk then Except.ok () else Except.error (), s2)

/-- C3 (code bug): when the round-creation write fails while the
seed-update write succeeds, `rollGenerateGame` fails (the promise rejects)
but the seed is left marked `completed` with no round record referencing
it — the two steps are not an atomic unit. -/
theorem rollGenerateGame_partial_failure_inconsistent :
    rollGenerateGameWrites false true ⟨RollSeedState.created, false⟩ =
      (Except.error (), ⟨RollSeedState.completed, false⟩) := rfl

/-! ## Claim C5: seed creation and the public commitment -/

/-- Hex encoding of a byte string (`Buffer.toString('hex')`): each byte
becomes its high nibble followed by its low nibble. -/
def rollBytesToHex (bytes : List (Fin 256)) : List (Fin 16) :=
  bytes.foldr
    (fun b acc =>
      ⟨b.val / 16, by have h := b.isLt; omega⟩ ::
        ⟨b.val % 16, by have h := b.isLt; omega⟩ :: acc)
    []

/-- A seed record as created by `rollGenerateGame`. -/
structure RollSeedRecord where
  seedServer : List (Fin 16)
  hash : List (Fin 16)
  state : RollSeedState

/-- New-seed creation (source lines 183–187): `seedServer` is the hex
encoding of one 32-byte secure random draw, and `hash` is the SHA-256 hex
digest of a SECOND, independent 32-byte secure random draw — not of the
secret.  The two random draws and the SHA-256 digest function are
parameters of the model. -/
def rollNewSeed (sha256hex : List (Fin 256) → List (Fin 16))
    (secretBytes commitBytes : List (Fin 256)) : RollSeedRecord :=
  { seedServer := rollBytesToHex secretBytes
    hash := sha256hex commitBytes
    state := RollSeedState.created }

/-- C5: the stored public commitment depends only on the
commitment-randomness, not on the secret: two runs with the same
commitment draw but different secrets store the identical `hash`, while
each stores its own secret in `seedServer`. -/
theorem rollNewSeed_hash_independent
    (sha256hex : List (Fin 256) → List (Fin 16))
    (s1 s2 r : List (Fin 256)) (hne : s1 ≠ s2) :
    (rollNewSeed sha256hex s1 r).hash = (rollNewSeed sha256hex s2 r).hash ∧
    (rollNewSeed sha256hex s1 r).seedServer = rollBytesToHex s1 ∧
    (rollNewSeed sha256hex s2 r).seedServer = rollBytesToHex s2 :=
  ⟨rfl, rfl, rfl⟩

/-- C5 witness: the theorem applied to two concrete distinct one-byte
secrets and an arbitrary digest function. -/
theorem rollNewSeed_hash_independent_witness :
    ([0] : List (Fin 256)) ≠ [1] ∧
    ((rollNewSeed (fun _ => []) [0] []).hash = (rollNewSeed (fun _ => []) [1] []).hash ∧
      (rollNewSeed (fun _ => []) [0] []).seedServer = rollBytesToHex [0] ∧
      (rollNewSeed (fun _ => []) [1] []).seedServer = rollBytesToHex [1]) :=
  ⟨by decide, rollNewSeed_hash_independent (fun _ => []) [0] [1] [] (by decide)⟩

/-! ## Claims C8 and C9: the view sanitizers -/

/-- The fairness payload of a round (`fair` field): a reference to the
seed record. -/
structure RollFairData where
  seed : ℕ
  deriving DecidableEq

/-- A round record as passed to `rollSanitizeGame`; `outcome`/`fair`
absent is `none` (the JSON deep copy preserves all other fields, here
represented by `updatedAt`). -/
structure RollGameRecord where
  state : String
  outcome : Option ℕ
  fair : Option RollFairData
  updatedAt : ℕ
  deriving DecidableEq

/-- `rollSanitizeGame(game)` (source lines 241–250): deep-copies the round
and, when the state is neither `'rolling'` nor `'completed'`, deletes the
`outcome` and `fair` fields. -/
def rollSanitizeGame (game : RollGameRecord) : RollGameRecord :=
  if game.state ≠ "rolling" ∧ game.state ≠ "completed" then
    { game with outcome := none, fair := none }
  else game

/-- C8: for every round whose state is neither `'rolling'` nor
`'completed'`, the sanitized copy carries no outcome and no fairness
payload; for a round in state `'completed'` both fields are passed
through unchanged. -/
theorem rollSanitizeGame_spec (game : RollGameRecord) :
    (game.state ≠ "rolling" ∧ game.state ≠ "completed" →
      (rollSanitizeGame game).outcome = none ∧ (rollSanitizeGame game).fair = none) ∧
    (game.state = "completed" →
      (rollSanitizeGame game).outcome = game.outcome ∧
      (rollSanitizeGame game).fair = game.fair) := by
  constructor
  · intro h
    rw [rollSanitizeGame, if_pos h]
    exact ⟨rfl, rfl⟩
  · intro h
    rw [rollSanitizeGame, if_neg (by simp [h])]
    exact ⟨rfl, rfl⟩

/-- C8 witness: the theorem applied to an OPEN (`'created'`) round and to a
RESOLVED (`'completed'`) round, both carrying an outcome and a seed
reference. -/
theorem rollSanitizeGame_spec_witness :
    ((rollSanitizeGame ⟨"created", some 150, some ⟨7⟩, 3⟩).outcome = none ∧
      (rollSanitizeGame ⟨"created", some 150, some ⟨7⟩, 3⟩).fair = none) ∧
    ((rollSanitizeGame ⟨"completed", some 150, some ⟨7⟩, 3⟩).outcome = some 150 ∧
      (rollSanitizeGame ⟨"completed", some 150, some ⟨7⟩, 3⟩).fair = some ⟨7⟩) :=
  ⟨(rollSanitizeGame_spec _).1 (by simp),
   (rollSanitizeGame_spec _).2 rfl⟩

/-- A user's rakeback object; only its `name` survives sanitisation. -/
structure RollRakeback where
  name : String
  percentage : ℚ

/-- The populated user document referenced by a stored bet, with the nine
public fields kept by `rollSanitizeBets` plus the private balance. -/
structure RollFullUser where
  _id : ℕ
  roblox : String
  username : String
  avatar : String
  rank : String
  level : ℕ
  rakeback : RollRakeback
  stats : ℕ
  createdAt : ℕ
  balance : ℚ

/-- The public projection of a user produced by `rollSanitizeBets`:
exactly `_id`, `roblox`, `username`, `avatar`, `rank`, `level`, the
rakeback tier name, `stats` and `createdAt` — no balance field exists. -/
structure RollPublicUser where
  _id : ℕ
  roblox : String
  username : String
  avatar : String
  rank : String
  level : ℕ
  rakeback : String
  stats : ℕ
  createdAt : ℕ

/-- A stored bet as passed to `rollSanitizeBets`. -/
structure RollBetRecord where
  amount : ℚ
  multiplier : ℚ
  user : RollFullUser

/-- A sanitized bet: the spread `{...bet}` keeps the bet's own fields and
replaces `user` with the public projection. -/
structure RollPublicBetRecord where
  amount : ℚ
  multiplier : ℚ
  user : RollPublicUser

/-- `rollSanitizeBets(bets)` (source lines 253–274): pushes, for each bet
in order, a copy of the bet whose `user` is rebuilt from exactly the nine
public fields (with `rakeback` collapsed to `bet.user.rakeback.name`). -/
def rollSanitizeBets : List RollBetRecord → List RollPublicBetRecord
  | [] => []
  | bet :: rest =>
      { amount := bet.amount
        multiplier := bet.multiplier
        user :=
          { _id := bet.user._id
            roblox := bet.user.roblox
            username := bet.user.username
            avatar := bet.user.avatar
            rank := bet.user.rank
            level := bet.user.level
            rakeback := bet.user.rakeback.name
            stats := bet.user.stats
            createdAt := bet.user.createdAt } } :: rollSanitizeBets rest

/-- Overwrite the private balance of a bet's user. -/
def rollSetBalance (q : ℚ) (bet : RollBetRecord) : RollBetRecord :=
  { bet with user := { bet.user with balance := q } }

/-- C9: every element of the output of `rollSanitizeBets` is the input bet
with its user reference replaced by exactly the fixed public field set
(`_id`, roblox identity, username, avatar, rank, level, rakeback tier
name, stats, createdAt); the output is unchanged under any rewrite of the
input users' balances, so no balance information reaches it. -/
theorem rollSanitizeBets_public_projection (bets : List RollBetRecord) :
    rollSanitizeBets bets =
      bets.map (fun bet =>
        { amount := bet.amount
          multiplier := bet.multiplier
          user :=
            { _id := bet.user._id
              roblox := bet.user.roblox
              username := bet.user.username
              avatar := bet.user.avatar
              rank := bet.user.rank
              level := bet.user.level
              rakeback := bet.user.rakeback.name
              stats := bet.user.stats
              createdAt := bet.user.createdAt } }) ∧
    ∀ q : ℚ, rollSanitizeBets (bets.map (rollSetBalance q)) = rollSanitizeBets bets := by
  constructor
  · induction bets with
    | nil => rfl
    | cons b t ih => simp [rollSanitizeBets, ih]
  · intro q
    induction bets with
    | nil => rfl
    | cons b t ih => simp [rollSanitizeBets, rollSetBalance, ih]
